import Mathlib

/-!
Verification of the `SelectFromQuadraticModel` feature selector
(`dwave/plugins/sklearn/transformers.py`).

The development shallowly embeds the transformer:

* array shapes are `List ℕ` and `np.atleast_2d` acts on shapes;
* the Pearson correlation matrix of `[X | y]` is an external collaborator
  (`corrcoef` lives outside the verified core), so it enters as a parameter
  `corr : ℕ → ℕ → ℚ`; the feature columns are indices `0..m-1` and the label
  is index `m`;
* the dimod CQM objective set by
  `cqm.set_objective((*it.multi_index, x) for x in it)` is embedded as the
  row-major list of `(i, j, bias)` triples over the `m × m` submatrix, and
  the dimod accumulation semantics (a `(u, u, bias)` term on a BINARY
  variable adds to the linear bias, a `(u, v, bias)` term with `u ≠ v` adds
  to the quadratic bias of the unordered pair) as sums over that list;
* the Leap hybrid sampler is an external collaborator, entering as a
  `SolverBehavior` value, and `fit` additionally reports which `time_limit`
  it dispatched so that the dispatch can be inspected;
* Python exceptions become `PluginError` values; `fit` returns the error
  raised (if any) together with the post-call instance state, so that
  "a failed fit leaves the mask untouched" is a provable property of the
  embedding rather than a definitional artifact.
-/

/-- `np.atleast_2d` on shapes: a 0-d array becomes `(1, 1)`, a 1-d array of
length `n` becomes `(1, n)`, and arrays with 2 or more dimensions are
returned unchanged. -/
def atleast_2d (shape : List ℕ) : List ℕ :=
  match shape with
  | [] => [1, 1]
  | [n] => [1, n]
  | s => s

/-- The error kinds surfaced by the transformer: `invalidInput` models
`ValueError`, `solverUnavailable` the `RuntimeError` raised when the Leap
sampler cannot be instantiated, `noFeasibleSolution` the `RuntimeError`
raised when no returned sample is feasible, `notFitted` sklearn's
`NotFittedError`, and `attributeError` Python's `AttributeError`. -/
inductive PluginError where
  | invalidInput
  | solverUnavailable
  | noFeasibleSolution
  | notFitted
  | attributeError
deriving DecidableEq

/-- `SelectFromQuadraticModel.ACCEPTED_METHODS`. -/
def ACCEPTED_METHODS : List String := ["correlation"]

/-- The constructor-stored hyperparameters (`_alpha`, `_method`,
`_num_features`, `_time_limit`). -/
structure Config where
  alpha : ℚ
  method : String
  num_features : ℤ
  time_limit : Option ℚ
deriving DecidableEq

/-- `SelectFromQuadraticModel.__init__`: validates `alpha ∈ [0, 1]`, the
method string, and `num_features > 0` (in that order), then stores the
hyperparameters.  `time_limit` is stored unchecked. -/
def init (alpha : ℚ) (method : String) (num_features : ℤ)
    (time_limit : Option ℚ) : Except PluginError Config :=
  if ¬ (0 ≤ alpha ∧ alpha ≤ 1) then .error .invalidInput
  else if method ∉ ACCEPTED_METHODS then .error .invalidInput
  else if num_features ≤ 0 then .error .invalidInput
  else .ok ⟨alpha, method, num_features, time_limit⟩

/-- The observable instance state: the stored hyperparameters plus the
`_mask` attribute, which is absent (`none`) exactly when the instance is
unfitted. -/
structure SelectorState where
  config : Config
  mask : Option (List Bool)
deriving DecidableEq

/-- `__sklearn_is_fitted__`: the instance is fitted iff `_mask` exists. -/
def sklearn_is_fitted (st : SelectorState) : Bool := st.mask.isSome

/-- `_get_support_mask`: `check_is_fitted` raises `NotFittedError` while
unfitted; otherwise the stored mask is returned. -/
def get_support_mask (st : SelectorState) : Except PluginError (List Bool) :=
  if sklearn_is_fitted st then
    match st.mask with
    | some mk => .ok mk
    | none => .error .notFitted
  else .error .notFitted

/-- `unfit`: `del self._mask`.  Deleting a missing attribute raises
`AttributeError`. -/
def unfit (st : SelectorState) : Except PluginError SelectorState :=
  match st.mask with
  | none => .error .attributeError
  | some _ => .ok { st with mask := none }

/-- `np.absolute(correlations, out=correlations)`: entrywise absolute value
of the `(m+1) × (m+1)` correlation matrix. -/
def absCorr (C : ℕ → ℕ → ℚ) (i j : ℕ) : ℚ := |C i j|

/-- The correlation matrix after
`np.fill_diagonal(correlations, -correlations[:, -1] * alpha)`: diagonal
entry `i` becomes `-|corr(i, label)| * alpha` (the label column has index
`m`), off-diagonal entries keep their absolute values. -/
def filledCorr (m : ℕ) (C : ℕ → ℕ → ℚ) (alpha : ℚ) (i j : ℕ) : ℚ :=
  if i = j then -(absCorr C i m) * alpha else absCorr C i j

/-- The row-major enumeration of the index pairs of the `m × m` submatrix
`correlations[:-1, :-1]`, as produced by `np.nditer` with `multi_index`. -/
def indexPairs (m : ℕ) : List (ℕ × ℕ) := List.product (List.range m) (List.range m)

/-- The term list handed to `cqm.set_objective`: one `(i, j, bias)` triple
per entry of the processed `m × m` submatrix. -/
def objectiveTerms (m : ℕ) (C : ℕ → ℕ → ℚ) (alpha : ℚ) : List (ℕ × ℕ × ℚ) :=
  (indexPairs m).map (fun p => (p.1, p.2, filledCorr m C alpha p.1 p.2))

/-- dimod semantics of a term list on BINARY variables, linear part: a term
`(u, u, bias)` contributes `bias` to the linear bias of `u` (since
`x * x = x` for a binary variable), so the final linear bias of `u` is the
sum of the biases of the `(u, u, _)` terms. -/
def objectiveLinear (terms : List (ℕ × ℕ × ℚ)) (u : ℕ) : ℚ :=
  ((terms.filter (fun t => decide (t.1 = u ∧ t.2.1 = u))).map (fun t => t.2.2)).sum

/-- dimod semantics of a term list, quadratic part: for `u ≠ v` the
quadratic bias of the unordered pair `{u, v}` accumulates the biases of all
terms written as `(u, v, _)` or `(v, u, _)`. -/
def objectiveQuadratic (terms : List (ℕ × ℕ × ℚ)) (u v : ℕ) : ℚ :=
  ((terms.filter
      (fun t => decide ((t.1 = u ∧ t.2.1 = v) ∨ (t.1 = v ∧ t.2.1 = u)))).map
    (fun t => t.2.2)).sum

/-- A constraint sense: `'=='` or `'<='`. -/
inductive Sense where
  | eq
  | le
deriving DecidableEq

/-- One linear constraint of a CQM: `(variable, coefficient)` terms, a
sense, and a right-hand side. -/
structure LinearConstraint where
  terms : List (ℕ × ℚ)
  sense : Sense
  rhs : ℤ
deriving DecidableEq

/-- The k-hot constraint added by
`cqm.add_constraint(((v, 1) for v in cqm.variables), '==' if strict else '<=', num_features)`. -/
def kHot (m : ℕ) (strict : Bool) (k : ℤ) : LinearConstraint :=
  ⟨(List.range m).map (fun v => (v, (1 : ℚ))), if strict then .eq else .le, k⟩

/-- The constrained quadratic model assembled by `correlation_cqm`:
binary variables `0..numVars-1` (in that order), the objective term list,
and the constraints. -/
structure CQModel where
  numVars : ℕ
  objTerms : List (ℕ × ℕ × ℚ)
  constraints : List LinearConstraint

/-- `cqm.variables`: the variables in declaration order, `0..numVars-1`. -/
def CQModel.variables (cqm : CQModel) : List ℕ := List.range cqm.numVars

/-- `correlation_cqm(X, y, alpha=…, num_features=…, strict=…)`.
Validation order follows the source: `X` promoted by `atleast_2d` must be
2-d, `y` must be 1-d, `alpha ∈ [0, 1]`, `num_features > 0`; then the model
is built with one binary variable per feature column, the k-hot constraint,
and the objective terms derived from the correlation matrix of `[X | y]`
(the collaborator `corrcoef`, passed in as `corr`). -/
def correlation_cqm (xShape : List ℕ) (yNdim : ℕ) (corr : ℕ → ℕ → ℚ)
    (alpha : ℚ) (num_features : ℤ) (strict : Bool) : Except PluginError CQModel :=
  let Xs := atleast_2d xShape
  if Xs.length ≠ 2 then .error .invalidInput
  else if yNdim ≠ 1 then .error .invalidInput
  else if ¬ (0 ≤ alpha ∧ alpha ≤ 1) then .error .invalidInput
  else if num_features ≤ 0 then .error .invalidInput
  else
    let m := Xs.getD 1 0
    .ok ⟨m, objectiveTerms m corr alpha, [kHot m strict num_features]⟩

/-- One sample of a solver-returned sample set: a 0/1 assignment to the
variables (as booleans), its objective value ("energy"), and the solver's
feasibility flag. -/
structure Sample where
  assignment : ℕ → Bool
  energy : ℚ
  feasible : Bool

/-- `sampleset.first` on a (filtered) sample set: the sample with the
lowest energy, ties broken by record order; `none` on an empty set. -/
def sampleset_first (l : List Sample) : Option Sample :=
  match l with
  | [] => none
  | s :: rest => some (rest.foldl (fun best x => if x.energy < best.energy then x else best) s)

/-- The external Leap hybrid solver collaborator on one `fit` call: either
sampler instantiation fails (`ConfigFileError` / `SolverAuthenticationError`)
or `sample_cqm` returns a sample set. -/
inductive SolverBehavior where
  | unavailable
  | returns (ss : List Sample)

/-- What one `fit` call did: the error raised (`none` on success), the
instance state after the call, and — when `sample_cqm` was invoked — the
`time_limit` it was invoked with. -/
structure FitOutcome where
  error : Option PluginError
  state : SelectorState
  solverCall : Option (Option ℚ)
deriving DecidableEq

/-- `fit(X, y, *, alpha=None, num_features=None, time_limit=None)`.
Mirrors the source line by line: promote `X` with `atleast_2d` and require
2 dimensions; resolve `alpha` and `num_features` to the constructor values
when omitted (`time_limit` is accepted but never read by the source);
short-circuit with an all-true mask when `num_features ≥ X.shape[1]`;
otherwise build the CQM via `correlation_cqm`, instantiate the sampler,
call `sample_cqm(cqm, time_limit=self._time_limit)`, filter the returned
samples to the feasible ones, fail when none remain, and store the lowest
energy sample projected along `cqm.variables` as the mask.  Each `raise`
returns the error together with the unchanged state.  The final `else`
branch (unreachable through the validated constructor) models the fact
that its `raise ValueError(f"only methods {self.acceptable_methods} …")`
reads the non-existent attribute `acceptable_methods`, so that statement
actually raises `AttributeError` while formatting the message. -/
def fit (st : SelectorState) (xShape : List ℕ) (yNdim : ℕ)
    (alphaArg : Option ℚ) (numFeaturesArg : Option ℤ) (timeLimitArg : Option ℚ)
    (corr : ℕ → ℕ → ℚ) (solver : SolverBehavior) : FitOutcome :=
  let Xs := atleast_2d xShape
  if Xs.length ≠ 2 then ⟨some .invalidInput, st, none⟩
  else
    let alpha := alphaArg.getD st.config.alpha
    let num_features := numFeaturesArg.getD st.config.num_features
    if num_features ≥ (Xs.getD 1 0 : ℤ) then
      ⟨none, { st with mask := some (List.replicate (Xs.getD 1 0) true) }, none⟩
    else if st.config.method = "correlation" then
      match correlation_cqm Xs yNdim corr alpha num_features true with
      | .error e => ⟨some e, st, none⟩
      | .ok cqm =>
        match solver with
        | .unavailable => ⟨some .solverUnavailable, st, none⟩
        | .returns ss =>
          let filtered := ss.filter (fun s => s.feasible)
          match sampleset_first filtered with
          | none => ⟨some .noFeasibleSolution, st, some st.config.time_limit⟩
          | some lowest =>
            ⟨none,
             { st with mask := some (cqm.variables.map (fun v => lowest.assignment v)) },
             some st.config.time_limit⟩
    else ⟨some .attributeError, st, none⟩

/-- The value of the linear expression of a constraint at a 0/1 assignment:
each term contributes `coefficient * value(variable)`. -/
def evalTerms (terms : List (ℕ × ℚ)) (a : ℕ → Bool) : ℚ :=
  (terms.map (fun t => t.2 * (if a t.1 then (1 : ℚ) else 0))).sum

/-- A 0/1 assignment satisfies a linear constraint when its linear
expression compares to the right-hand side according to the sense. -/
def satisfies (c : LinearConstraint) (a : ℕ → Bool) : Prop :=
  match c.sense with
  | .eq => evalTerms c.terms a = (c.rhs : ℚ)
  | .le => evalTerms c.terms a ≤ (c.rhs : ℚ)

instance (c : LinearConstraint) (a : ℕ → Bool) : Decidable (satisfies c a) := by
  unfold satisfies
  rcases c.sense with _ | _
  · exact inferInstance
  · exact inferInstance

/-- A concrete symmetric correlation matrix used to instantiate the
universal theorems: `1` on the diagonal, `1/2` elsewhere. -/
def Csym : ℕ → ℕ → ℚ := fun i j => if i = j then 1 else 1/2

/-- A concrete instance (`alpha=1`, `method="correlation"`,
`num_features=10`, `time_limit=None`), never fitted. -/
def stA : SelectorState := ⟨⟨1, "correlation", 10, none⟩, none⟩

/-- A concrete instance with `num_features=1`, previously fitted with mask
`[True, False]`. -/
def stB : SelectorState := ⟨⟨1, "correlation", 1, some 3⟩, some [true, false]⟩

/-- A sample set with two feasible one-hot samples (energies 5 and 3) and
one infeasible sample of lower energy. -/
def ssMixed : List Sample :=
  [⟨fun v => decide (v = 0), 5, true⟩,
   ⟨fun v => decide (v = 1), 3, true⟩,
   ⟨fun _ => true, -10, false⟩]

/-- A sample set in which no sample is feasible. -/
def ssInfeasible : List Sample := [⟨fun _ => true, 0, false⟩, ⟨fun _ => false, 1, false⟩]

theorem sum_map_filter_map {α β : Type*} (l : List α) (f : α → β) (p : β → Bool) (g : β → ℚ) :
    (((l.map f).filter p).map g).sum
      = ((l.filter (fun a => p (f a))).map (fun a => g (f a))).sum := by
  induction l with
  | nil => rfl
  | cons a t ih =>
    by_cases h : p (f a) = true
    · simp [List.filter_cons, h, ih]
    · simp [List.filter_cons, h, ih]

theorem sum_map_filter_single {α : Type*} [DecidableEq α] (l : List α) (p : α → Bool)
    (g : α → ℚ) (a : α) (hnd : l.Nodup) (ha : a ∈ l)
    (hp : ∀ x ∈ l, p x = true ↔ x = a) :
    ((l.filter p).map g).sum = g a := by
  induction l with
  | nil => cases ha
  | cons b t ih =>
    rcases List.nodup_cons.mp hnd with ⟨hbt, hndt⟩
    by_cases hba : b = a
    · subst hba
      have hpb : p b = true := (hp b (List.mem_cons_self b t)).mpr rfl
      have hft : t.filter p = [] := by
        rw [List.filter_eq_nil_iff]
        intro x hx hpx
        exact hbt (((hp x (List.mem_cons_of_mem _ hx)).mp hpx) ▸ hx)
      simp [List.filter_cons, hpb, hft]
    · have hpb : ¬ p b = true := fun h => hba ((hp b (List.mem_cons_self b t)).mp h)
      have hat : a ∈ t := by
        rcases List.mem_cons.mp ha with h | h
        · exact absurd h.symm hba
        · exact h
      rw [List.filter_cons, if_neg hpb]
      exact ih hndt hat (fun x hx => hp x (List.mem_cons_of_mem _ hx))

theorem sum_map_filter_pair {α : Type*} [DecidableEq α] (l : List α) (p : α → Bool)
    (g : α → ℚ) (a b : α) (hab : a ≠ b) (hnd : l.Nodup) (ha : a ∈ l) (hb : b ∈ l)
    (hp : ∀ x ∈ l, p x = true ↔ (x = a ∨ x = b)) :
    ((l.filter p).map g).sum = g a + g b := by
  induction l with
  | nil => cases ha
  | cons c t ih =>
    rcases List.nodup_cons.mp hnd with ⟨hct, hndt⟩
    by_cases hca : c = a
    · subst hca
      have hpc : p c = true := (hp c (List.mem_cons_self c t)).mpr (Or.inl rfl)
      have hbt : b ∈ t := by
        rcases List.mem_cons.mp hb with h | h
        · exact absurd h.symm hab
        · exact h
      have hrest : ((t.filter p).map g).sum = g b := by
        apply sum_map_filter_single t p g b hndt hbt
        intro x hx
        constructor
        · intro hpx
          rcases (hp x (List.mem_cons_of_mem _ hx)).mp hpx with h | h
          · exact absurd (h ▸ hx) hct
          · exact h
        · intro hxb
          exact (hp x (List.mem_cons_of_mem _ hx)).mpr (Or.inr hxb)
      simp [List.filter_cons, hpc, hrest]
    · by_cases hcb : c = b
      · subst hcb
        have hpc : p c = true := (hp c (List.mem_cons_self c t)).mpr (Or.inr rfl)
        have hat : a ∈ t := by
          rcases List.mem_cons.mp ha with h | h
          · exact absurd h.symm hca
          · exact h
        have hrest : ((t.filter p).map g).sum = g a := by
          apply sum_map_filter_single t p g a hndt hat
          intro x hx
          constructor
          · intro hpx
            rcases (hp x (List.mem_cons_of_mem _ hx)).mp hpx with h | h
            · exact h
            · exact absurd (h ▸ hx) hct
          · intro hxa
            exact (hp x (List.mem_cons_of_mem _ hx)).mpr (Or.inl hxa)
        rw [List.filter_cons, if_pos hpc]
        simp only [List.map_cons, List.sum_cons, hrest]
        exact add_comm _ _
      · have hpc : ¬ p c = true := fun h => by
          rcases (hp c (List.mem_cons_self c t)).mp h with h' | h'
          · exact hca h'
          · exact hcb h'
        have hat : a ∈ t := by
          rcases List.mem_cons.mp ha with h | h
          · exact absurd h.symm hca
          · exact h
        have hbt : b ∈ t := by
          rcases List.mem_cons.mp hb with h | h
          · exact absurd h.symm hcb
          · exact h
        rw [List.filter_cons, if_neg hpc]
        exact ih hndt hat hbt (fun x hx => hp x (List.mem_cons_of_mem _ hx))

theorem indexPairs_nodup (m : ℕ) : (indexPairs m).Nodup :=
  List.Nodup.product (List.nodup_range m) (List.nodup_range m)

theorem mem_indexPairs {m i j : ℕ} (hi : i < m) (hj : j < m) : (i, j) ∈ indexPairs m :=
  List.mem_product.mpr ⟨List.mem_range.mpr hi, List.mem_range.mpr hj⟩

/-- **C1.** For every symmetric `(m+1) × (m+1)` correlation matrix `C` and
every `alpha ∈ [0, 1]`, the objective assembled by `correlation_cqm` gives
each feature variable `i < m` the linear coefficient
`-alpha * |corr(feature_i, label)|`, and for every ordered pair of distinct
features `(i, j)` the term list contains a quadratic term of bias
`|corr(feature_i, feature_j)|` for both orderings `(i, j)` and `(j, i)` —
so the accumulated quadratic bias of the pair is twice that magnitude —
with no `(1 - alpha)` or other alpha scaling on the off-diagonal terms. -/
theorem C1_objective_coefficients (m : ℕ) (C : ℕ → ℕ → ℚ) (alpha : ℚ)
    (hsym : ∀ i j, C i j = C j i) (halpha : 0 ≤ alpha ∧ alpha ≤ 1)
    (i j : ℕ) (hi : i < m) (hj : j < m) (hij : i ≠ j) :
    objectiveLinear (objectiveTerms m C alpha) i = -alpha * |C i m| ∧
    (i, j, |C i j|) ∈ objectiveTerms m C alpha ∧
    (j, i, |C i j|) ∈ objectiveTerms m C alpha ∧
    objectiveQuadratic (objectiveTerms m C alpha) i j = |C i j| + |C i j| := by
  refine ⟨?_, ?_, ?_, ?_⟩
  · unfold objectiveLinear objectiveTerms
    rw [sum_map_filter_map]
    have h := sum_map_filter_single (indexPairs m)
      (fun a => decide (a.1 = i ∧ a.2 = i))
      (fun a => filledCorr m C alpha a.1 a.2) (i, i)
      (indexPairs_nodup m) (mem_indexPairs hi hi)
      (by intro x hx; simp [Prod.ext_iff])
    rw [show (((indexPairs m).filter (fun a => decide (a.1 = i ∧ a.2 = i))).map
        (fun a => filledCorr m C alpha a.1 a.2)).sum = filledCorr m C alpha i i from h]
    have h2 : filledCorr m C alpha i i = -(|C i m|) * alpha := by
      simp [filledCorr, absCorr]
    rw [h2]
    ring
  · unfold objectiveTerms
    refine List.mem_map.mpr ⟨(i, j), mem_indexPairs hi hj, ?_⟩
    simp [filledCorr, hij, absCorr]
  · unfold objectiveTerms
    refine List.mem_map.mpr ⟨(j, i), mem_indexPairs hj hi, ?_⟩
    have hji : C j i = C i j := hsym j i
    simp [filledCorr, Ne.symm hij, absCorr, hji]
  · unfold objectiveQuadratic objectiveTerms
    rw [sum_map_filter_map]
    have h := sum_map_filter_pair (indexPairs m)
      (fun a => decide ((a.1 = i ∧ a.2 = j) ∨ (a.1 = j ∧ a.2 = i)))
      (fun a => filledCorr m C alpha a.1 a.2) (i, j) (j, i)
      (by intro h; exact hij (congrArg Prod.fst h))
      (indexPairs_nodup m) (mem_indexPairs hi hj) (mem_indexPairs hj hi)
      (by intro x hx; simp [Prod.ext_iff])
    rw [show (((indexPairs m).filter
        (fun a => decide ((a.1 = i ∧ a.2 = j) ∨ (a.1 = j ∧ a.2 = i)))).map
        (fun a => filledCorr m C alpha a.1 a.2)).sum
        = filledCorr m C alpha i j + filledCorr m C alpha j i from h]
    have h1 : filledCorr m C alpha i j = |C i j| := by
      simp [filledCorr, hij, absCorr]
    have h2 : filledCorr m C alpha j i = |C i j| := by
      have hji : C j i = C i j := hsym j i
      simp [filledCorr, Ne.symm hij, absCorr, hji]
    rw [h1, h2]

theorem C1_objective_coefficients_w :
    objectiveLinear (objectiveTerms 2 Csym (1/2)) 0 = -(1/2) * |Csym 0 2| ∧
    (0, 1, |Csym 0 1|) ∈ objectiveTerms 2 Csym (1/2) ∧
    (1, 0, |Csym 0 1|) ∈ objectiveTerms 2 Csym (1/2) ∧
    objectiveQuadratic (objectiveTerms 2 Csym (1/2)) 0 1 = |Csym 0 1| + |Csym 0 1| :=
  C1_objective_coefficients 2 Csym (1/2)
    (by
      intro i j
      unfold Csym
      by_cases h : i = j
      · rw [if_pos h, if_pos h.symm]
      · rw [if_neg h, if_neg (Ne.symm h)])
    (by norm_num) 0 1 (by norm_num) (by norm_num) (by norm_num)

/-- **C8.** For every variable set of size `m` (the feature columns of a
valid `X`) and target count `K > 0`, `correlation_cqm` adds exactly one
linear constraint whose terms are all `m` variables with coefficient `1`,
sense `'=='` when `strict=True` and `'<='` when `strict=False`, and
right-hand side `K`; for `K ≤ 0` it fails with `InvalidInput`. -/
theorem C8_cardinality_constraint (xShape : List ℕ) (yNdim : ℕ) (corr : ℕ → ℕ → ℚ)
    (alpha : ℚ) (K : ℤ) (strict : Bool)
    (hx : (atleast_2d xShape).length = 2) (hy : yNdim = 1)
    (ha : 0 ≤ alpha ∧ alpha ≤ 1) :
    (0 < K → ∃ cqm, correlation_cqm xShape yNdim corr alpha K strict = .ok cqm ∧
      cqm.numVars = (atleast_2d xShape).getD 1 0 ∧
      cqm.constraints =
        [⟨(List.range cqm.numVars).map (fun v => (v, (1 : ℚ))),
          if strict then .eq else .le, K⟩] ∧
      (∀ v : ℕ, (v, (1 : ℚ)) ∈ ((List.range cqm.numVars).map (fun v => (v, (1 : ℚ))))
        ↔ v < cqm.numVars) ∧
      ((List.range cqm.numVars).map (fun v => (v, (1 : ℚ)))).length = cqm.numVars) ∧
    (K ≤ 0 → correlation_cqm xShape yNdim corr alpha K strict = .error .invalidInput) := by
  constructor
  · intro hK
    refine ⟨⟨(atleast_2d xShape).getD 1 0,
      objectiveTerms ((atleast_2d xShape).getD 1 0) corr alpha,
      [kHot ((atleast_2d xShape).getD 1 0) strict K]⟩, ?_, rfl, ?_, ?_, ?_⟩
    · simp only [correlation_cqm]
      rw [if_neg (by simp [hx]), if_neg (by simp [hy]), if_neg (not_not_intro ha),
        if_neg (by omega)]
    · simp [kHot]
    · intro v
      constructor
      · intro hv
        rcases List.mem_map.mp hv with ⟨w, hw, hweq⟩
        have : w = v := congrArg Prod.fst hweq
        exact this ▸ List.mem_range.mp hw
      · intro hv
        exact List.mem_map.mpr ⟨v, List.mem_range.mpr hv, rfl⟩
    · simp
  · intro hK
    simp only [correlation_cqm]
    rw [if_neg (by simp [hx]), if_neg (by simp [hy]), if_neg (not_not_intro ha),
      if_pos hK]

theorem C8_cardinality_constraint_w :
    (∃ cqm, correlation_cqm [5, 3] 1 Csym (1/2) 2 true = .ok cqm ∧
      cqm.numVars = (atleast_2d [5, 3]).getD 1 0 ∧
      cqm.constraints =
        [⟨(List.range cqm.numVars).map (fun v => (v, (1 : ℚ))), if true then .eq else .le, 2⟩] ∧
      (∀ v : ℕ, (v, (1 : ℚ)) ∈ ((List.range cqm.numVars).map (fun v => (v, (1 : ℚ))))
        ↔ v < cqm.numVars) ∧
      ((List.range cqm.numVars).map (fun v => (v, (1 : ℚ)))).length = cqm.numVars) ∧
    correlation_cqm [5, 3] 1 Csym (1/2) 0 false = .error .invalidInput :=
  ⟨(C8_cardinality_constraint [5, 3] 1 Csym (1/2) 2 true rfl rfl
      (by norm_num)).1 (by norm_num),
   (C8_cardinality_constraint [5, 3] 1 Csym (1/2) 0 false rfl rfl
      (by norm_num)).2 (by norm_num)⟩

/-- **C9.** While unfitted (never fitted, or after `unfit`),
`get_support_mask` fails with the not-fitted error and returns no mask;
for every fitted instance, `unfit` followed by `get_support_mask` fails
with `NotFitted`. -/
theorem C9_not_fitted_query (st : SelectorState) :
    (st.mask = none → get_support_mask st = .error .notFitted) ∧
    (∀ mk, st.mask = some mk →
      ∃ st2, unfit st = .ok st2 ∧ st2.mask = none ∧
        get_support_mask st2 = .error .notFitted) := by
  constructor
  · intro h
    simp [get_support_mask, sklearn_is_fitted, h]
  · intro mk h
    refine ⟨{ st with mask := none }, ?_, rfl, ?_⟩
    · simp [unfit, h]
    · simp [get_support_mask, sklearn_is_fitted]

theorem C9_not_fitted_query_w :
    get_support_mask stA = .error .notFitted ∧
    (∃ st2, unfit stB = .ok st2 ∧ st2.mask = none ∧
      get_support_mask st2 = .error .notFitted) :=
  ⟨(C9_not_fitted_query stA).1 rfl,
   (C9_not_fitted_query stB).2 [true, false] rfl⟩

theorem atleast_2d_of_length_two (s : List ℕ) (h : s.length = 2) : atleast_2d s = s := by
  match s with
  | [] => simp at h
  | [n] => simp at h
  | a :: b :: t => rfl

theorem correlation_cqm_ok (xShape : List ℕ) (yNdim : ℕ) (corr : ℕ → ℕ → ℚ)
    (alpha : ℚ) (nf : ℤ) (strict : Bool)
    (hx : (atleast_2d xShape).length = 2) (hy : yNdim = 1)
    (ha : 0 ≤ alpha ∧ alpha ≤ 1) (hnf : 0 < nf) :
    correlation_cqm xShape yNdim corr alpha nf strict =
      .ok ⟨(atleast_2d xShape).getD 1 0,
        objectiveTerms ((atleast_2d xShape).getD 1 0) corr alpha,
        [kHot ((atleast_2d xShape).getD 1 0) strict nf]⟩ := by
  simp only [correlation_cqm]
  rw [if_neg (by simp [hx]), if_neg (by simp [hy]), if_neg (not_not_intro ha),
    if_neg (by omega)]

theorem correlation_cqm_invalid (xShape : List ℕ) (yNdim : ℕ) (corr : ℕ → ℕ → ℚ)
    (alpha : ℚ) (nf : ℤ) (strict : Bool)
    (h : yNdim ≠ 1 ∨ ¬ (0 ≤ alpha ∧ alpha ≤ 1) ∨ nf ≤ 0) :
    correlation_cqm xShape yNdim corr alpha nf strict = .error .invalidInput := by
  simp only [correlation_cqm]
  by_cases hx : (atleast_2d xShape).length ≠ 2
  · rw [if_pos hx]
  · rw [if_neg hx]
    by_cases hy : yNdim ≠ 1
    · rw [if_pos hy]
    · rw [if_neg hy]
      by_cases ha : ¬ (0 ≤ alpha ∧ alpha ≤ 1)
      · rw [if_pos ha]
      · rw [if_neg ha]
        have hnf : nf ≤ 0 := by tauto
        rw [if_pos hnf]

theorem fit_short_circuit (st : SelectorState) (xShape : List ℕ) (yNdim : ℕ)
    (alphaArg : Option ℚ) (numFeaturesArg : Option ℤ) (timeLimitArg : Option ℚ)
    (corr : ℕ → ℕ → ℚ) (solver : SolverBehavior)
    (hx : (atleast_2d xShape).length = 2)
    (hnf : (numFeaturesArg.getD st.config.num_features) ≥ ((atleast_2d xShape).getD 1 0 : ℤ)) :
    fit st xShape yNdim alphaArg numFeaturesArg timeLimitArg corr solver =
      ⟨none, { st with mask := some (List.replicate ((atleast_2d xShape).getD 1 0) true) },
       none⟩ := by
  simp only [fit]
  rw [if_neg (by simp [hx]), if_pos hnf]

theorem fit_success_or_unchanged (st : SelectorState) (xShape : List ℕ) (yNdim : ℕ)
    (alphaArg : Option ℚ) (numFeaturesArg : Option ℤ) (timeLimitArg : Option ℚ)
    (corr : ℕ → ℕ → ℚ) (solver : SolverBehavior) :
    (fit st xShape yNdim alphaArg numFeaturesArg timeLimitArg corr solver).error = none ∨
    (fit st xShape yNdim alphaArg numFeaturesArg timeLimitArg corr solver).state = st := by
  simp only [fit]
  split
  · exact Or.inr rfl
  · split
    · exact Or.inl rfl
    · split
      · split
        · exact Or.inr rfl
        · split
          · exact Or.inr rfl
          · split
            · exact Or.inr rfl
            · exact Or.inl rfl
      · exact Or.inr rfl

theorem foldl_min_spec (rest : List Sample) (s : Sample) :
    (rest.foldl (fun best x => if x.energy < best.energy then x else best) s = s ∨
     rest.foldl (fun best x => if x.energy < best.energy then x else best) s ∈ rest) ∧
    (rest.foldl (fun best x => if x.energy < best.energy then x else best) s).energy
      ≤ s.energy ∧
    ∀ x ∈ rest,
      (rest.foldl (fun best x => if x.energy < best.energy then x else best) s).energy
        ≤ x.energy := by
  induction rest generalizing s with
  | nil =>
    refine ⟨Or.inl rfl, le_refl _, ?_⟩
    intro x hx
    cases hx
  | cons a t ih =>
    simp only [List.foldl_cons]
    by_cases h : a.energy < s.energy
    · rw [if_pos h]
      rcases ih a with ⟨hmem, hle, hall⟩
      refine ⟨?_, ?_, ?_⟩
      · rcases hmem with h1 | h1
        · refine Or.inr ?_
          rw [h1]
          exact List.mem_cons_self a t
        · exact Or.inr (List.mem_cons_of_mem a h1)
      · exact le_trans hle (le_of_lt h)
      · intro x hx
        rcases List.mem_cons.mp hx with h1 | h1
        · rw [h1]
          exact hle
        · exact hall x h1
    · rw [if_neg h]
      rcases ih s with ⟨hmem, hle, hall⟩
      refine ⟨?_, hle, ?_⟩
      · rcases hmem with h1 | h1
        · exact Or.inl h1
        · exact Or.inr (List.mem_cons_of_mem a h1)
      · intro x hx
        rcases List.mem_cons.mp hx with h1 | h1
        · rw [h1]
          exact le_trans hle (not_lt.mp h)
        · exact hall x h1

theorem sampleset_first_spec (l : List Sample) (hne : l ≠ []) :
    ∃ best, sampleset_first l = some best ∧ best ∈ l ∧
      ∀ x ∈ l, best.energy ≤ x.energy := by
  match l with
  | [] => exact absurd rfl hne
  | s :: rest =>
    rcases foldl_min_spec rest s with ⟨hmem, hle, hall⟩
    refine ⟨_, rfl, ?_, ?_⟩
    · rcases hmem with h1 | h1
      · rw [h1]
        exact List.mem_cons_self s rest
      · exact List.mem_cons_of_mem s h1
    · intro x hx
      rcases List.mem_cons.mp hx with h1 | h1
      · rw [h1]
        exact hle
      · exact hall x h1

theorem evalTerms_ones (l : List ℕ) (a : ℕ → Bool) :
    evalTerms (l.map (fun v => (v, (1 : ℚ)))) a = (((l.map a).count true : ℕ) : ℚ) := by
  induction l with
  | nil => rfl
  | cons v t ih =>
    show ((1 : ℚ) * (if a v then (1 : ℚ) else 0) +
        (List.map (fun tt => tt.2 * (if a tt.1 then (1 : ℚ) else 0))
          (t.map (fun v => (v, (1 : ℚ))))).sum)
      = (((a v :: t.map a).count true : ℕ) : ℚ)
    have ih2 : (List.map (fun tt => tt.2 * (if a tt.1 then (1 : ℚ) else 0))
        (t.map (fun v => (v, (1 : ℚ))))).sum = (((t.map a).count true : ℕ) : ℚ) := ih
    rw [ih2, List.count_cons]
    by_cases h : a v
    · simp [h]
      ring
    · simp [h]

theorem fit_solver_eval (st : SelectorState) (xShape : List ℕ)
    (alphaArg : Option ℚ) (numFeaturesArg : Option ℤ) (timeLimitArg : Option ℚ)
    (corr : ℕ → ℕ → ℚ) (ss : List Sample)
    (hx : (atleast_2d xShape).length = 2)
    (hmethod : st.config.method = "correlation")
    (halpha : 0 ≤ alphaArg.getD st.config.alpha ∧ alphaArg.getD st.config.alpha ≤ 1)
    (hnfpos : 0 < numFeaturesArg.getD st.config.num_features)
    (hnflt : numFeaturesArg.getD st.config.num_features
      < ((atleast_2d xShape).getD 1 0 : ℤ)) :
    fit st xShape 1 alphaArg numFeaturesArg timeLimitArg corr (.returns ss) =
      match sampleset_first (ss.filter (fun s => s.feasible)) with
      | none => ⟨some .noFeasibleSolution, st, some st.config.time_limit⟩
      | some lowest =>
        ⟨none,
         { st with mask := some ((List.range ((atleast_2d xShape).getD 1 0)).map
            (fun v => lowest.assignment v)) },
         some st.config.time_limit⟩ := by
  simp only [fit]
  rw [if_neg (by simp [hx]), if_neg (by omega), if_pos hmethod]
  have hXs2 : (atleast_2d (atleast_2d xShape)).length = 2 := by
    rw [atleast_2d_of_length_two (atleast_2d xShape) hx]
    exact hx
  have hcqm := correlation_cqm_ok (atleast_2d xShape) 1 corr
    (alphaArg.getD st.config.alpha) (numFeaturesArg.getD st.config.num_features) true
    hXs2 rfl halpha hnfpos
  rw [atleast_2d_of_length_two (atleast_2d xShape) hx] at hcqm
  rw [hcqm]
  rfl

/-- **C2** (code bug at the source's line 274). `fit` accepts and documents
a `time_limit` argument ("Defaults to the value provided to the
constructor"), but dispatches `sample_cqm(cqm, time_limit=self._time_limit)`
— always the constructor value, ignoring the argument.  At this concrete
input the constructor stored `None` while `fit` was called with
`time_limit=5`; the solver is nevertheless invoked with time budget `None`,
not `5`. -/
theorem C2_time_limit_not_dispatched :
    (fit stA [5, 4] 1 none (some 1) (some 5) Csym (.returns ssMixed)).solverCall
      = some none ∧
    (fit stA [5, 4] 1 none (some 1) (some 5) Csym (.returns ssMixed)).solverCall
      ≠ some (some 5) := by
  refine ⟨?_, ?_⟩ <;> decide

/-- **C3.** For every 2-dimensional `X` and resolved
`num_features ≥ number of feature columns`, `fit` stores an all-true mask
of that length, transitions to fitted, and returns without invoking the
solver collaborator. -/
theorem C3_short_circuit_all_true (st : SelectorState) (xShape : List ℕ) (yNdim : ℕ)
    (alphaArg : Option ℚ) (numFeaturesArg : Option ℤ) (timeLimitArg : Option ℚ)
    (corr : ℕ → ℕ → ℚ) (solver : SolverBehavior)
    (hx : (atleast_2d xShape).length = 2)
    (hnf : (numFeaturesArg.getD st.config.num_features)
      ≥ ((atleast_2d xShape).getD 1 0 : ℤ)) :
    (fit st xShape yNdim alphaArg numFeaturesArg timeLimitArg corr solver).error = none ∧
    (fit st xShape yNdim alphaArg numFeaturesArg timeLimitArg corr solver).state.mask
      = some (List.replicate ((atleast_2d xShape).getD 1 0) true) ∧
    sklearn_is_fitted
      (fit st xShape yNdim alphaArg numFeaturesArg timeLimitArg corr solver).state = true ∧
    (fit st xShape yNdim alphaArg numFeaturesArg timeLimitArg corr solver).solverCall
      = none := by
  rw [fit_short_circuit st xShape yNdim alphaArg numFeaturesArg timeLimitArg corr solver
    hx hnf]
  exact ⟨rfl, rfl, rfl, rfl⟩

theorem C3_short_circuit_all_true_w :
    (fit stA [3, 2] 1 none none none Csym .unavailable).error = none ∧
    (fit stA [3, 2] 1 none none none Csym .unavailable).state.mask
      = some (List.replicate ((atleast_2d [3, 2]).getD 1 0) true) ∧
    sklearn_is_fitted (fit stA [3, 2] 1 none none none Csym .unavailable).state = true ∧
    (fit stA [3, 2] 1 none none none Csym .unavailable).solverCall = none :=
  C3_short_circuit_all_true stA [3, 2] 1 none none none Csym .unavailable
    (by decide) (by decide)

/-- **C4 counterexample.** The claim states that every `fit` call with
alpha outside `[0, 1]` fails with `InvalidInput` and sets no mask.  On the
code, a `fit` call with `alpha=2` whose resolved `num_features` reaches the
short-circuit path succeeds and stores a mask: alpha is only validated
inside `correlation_cqm`, which that path never reaches. -/
theorem C4_short_circuit_skips_validation :
    (fit stA [3, 1] 1 (some 2) none none Csym .unavailable).error = none ∧
    (fit stA [3, 1] 1 (some 2) none none Csym .unavailable).state.mask = some [true] := by
  refine ⟨?_, ?_⟩ <;> decide

/-- **C4 (amended).** Construction fails with `InvalidInput` for alpha
outside `[0, 1]`, an unsupported method, or `num_features ≤ 0` (so every
constructed instance carries the method `"correlation"`); a `fit` call on
such an instance validates the resolved alpha and num_features only when
the model-building path is reached (resolved `num_features <` number of
feature columns): there it fails with `InvalidInput` and leaves the mask
unchanged. -/
theorem C4_invalid_hyperparameters :
    (∀ (alpha : ℚ) (method : String) (nf : ℤ) (tl : Option ℚ),
       (¬ (0 ≤ alpha ∧ alpha ≤ 1) ∨ method ∉ ACCEPTED_METHODS ∨ nf ≤ 0) →
       init alpha method nf tl = .error .invalidInput) ∧
    (∀ (st : SelectorState) (xShape : List ℕ) (yNdim : ℕ) (alphaArg : Option ℚ)
       (numFeaturesArg : Option ℤ) (timeLimitArg : Option ℚ) (corr : ℕ → ℕ → ℚ)
       (solver : SolverBehavior),
       st.config.method = "correlation" →
       (¬ (0 ≤ alphaArg.getD st.config.alpha ∧ alphaArg.getD st.config.alpha ≤ 1) ∨
         numFeaturesArg.getD st.config.num_features ≤ 0) →
       numFeaturesArg.getD st.config.num_features
         < ((atleast_2d xShape).getD 1 0 : ℤ) →
       (fit st xShape yNdim alphaArg numFeaturesArg timeLimitArg corr solver).error
         = some .invalidInput ∧
       (fit st xShape yNdim alphaArg numFeaturesArg timeLimitArg corr solver).state.mask
         = st.mask) := by
  constructor
  · intro alpha method nf tl hbad
    unfold init
    by_cases h1 : ¬ (0 ≤ alpha ∧ alpha ≤ 1)
    · rw [if_pos h1]
    · rw [if_neg h1]
      by_cases h2 : method ∉ ACCEPTED_METHODS
      · rw [if_pos h2]
      · rw [if_neg h2]
        have h3 : nf ≤ 0 := by tauto
        rw [if_pos h3]
  · intro st xShape yNdim alphaArg numFeaturesArg timeLimitArg corr solver hm hbad hlt
    simp only [fit]
    by_cases hx : (atleast_2d xShape).length ≠ 2
    · rw [if_pos hx]
      exact ⟨rfl, rfl⟩
    · rw [if_neg hx, if_neg (by omega), if_pos hm]
      rw [correlation_cqm_invalid (atleast_2d xShape) yNdim corr _ _ true (Or.inr hbad)]
      exact ⟨rfl, rfl⟩

theorem C4_invalid_hyperparameters_w :
    init 2 "correlation" 10 none = .error .invalidInput ∧
    ((fit stA [3, 2] 1 (some 2) (some 1) none Csym .unavailable).error
        = some .invalidInput ∧
     (fit stA [3, 2] 1 (some 2) (some 1) none Csym .unavailable).state.mask
        = stA.mask) :=
  ⟨C4_invalid_hyperparameters.1 2 "correlation" 10 none (Or.inl (by norm_num)),
   C4_invalid_hyperparameters.2 stA [3, 2] 1 (some 2) (some 1) none Csym .unavailable
     rfl (Or.inl (by norm_num)) (by decide)⟩

/-- **C5.** Every `fit` call that fails (validation error, solver
unavailability/authentication error, or no feasible sample) does not write
the instance's mask: an unfitted instance remains unfitted and a fitted
instance keeps its prior mask — success is all-or-nothing per call. -/
theorem C5_failed_fit_preserves_mask (st : SelectorState) (xShape : List ℕ) (yNdim : ℕ)
    (alphaArg : Option ℚ) (numFeaturesArg : Option ℤ) (timeLimitArg : Option ℚ)
    (corr : ℕ → ℕ → ℚ) (solver : SolverBehavior) (e : PluginError)
    (he : (fit st xShape yNdim alphaArg numFeaturesArg timeLimitArg corr solver).error
      = some e) :
    (fit st xShape yNdim alphaArg numFeaturesArg timeLimitArg corr solver).state.mask
      = st.mask ∧
    sklearn_is_fitted
        (fit st xShape yNdim alphaArg numFeaturesArg timeLimitArg corr solver).state
      = sklearn_is_fitted st := by
  rcases fit_success_or_unchanged st xShape yNdim alphaArg numFeaturesArg timeLimitArg
    corr solver with h | h
  · rw [h] at he
    exact Option.noConfusion he
  · rw [h]
    exact ⟨rfl, rfl⟩

theorem C5_failed_fit_preserves_mask_w :
    (fit stB [2, 2, 2] 1 none none none Csym .unavailable).state.mask = stB.mask ∧
    sklearn_is_fitted (fit stB [2, 2, 2] 1 none none none Csym .unavailable).state
      = sklearn_is_fitted stB :=
  C5_failed_fit_preserves_mask stB [2, 2, 2] 1 none none none Csym .unavailable
    .invalidInput (by decide)

/-- **C6.** When the solver returns a sample set in which no sample is
flagged feasible, `fit` raises `NoFeasibleSolution` and the mask is not
stored (a previously-unfitted instance remains unfitted). -/
theorem C6_no_feasible_solution (st : SelectorState) (xShape : List ℕ)
    (alphaArg : Option ℚ) (numFeaturesArg : Option ℤ) (timeLimitArg : Option ℚ)
    (corr : ℕ → ℕ → ℚ) (ss : List Sample)
    (hx : (atleast_2d xShape).length = 2)
    (hmethod : st.config.method = "correlation")
    (halpha : 0 ≤ alphaArg.getD st.config.alpha ∧ alphaArg.getD st.config.alpha ≤ 1)
    (hnfpos : 0 < numFeaturesArg.getD st.config.num_features)
    (hnflt : numFeaturesArg.getD st.config.num_features
      < ((atleast_2d xShape).getD 1 0 : ℤ))
    (hinf : ∀ s ∈ ss, s.feasible = false) :
    (fit st xShape 1 alphaArg numFeaturesArg timeLimitArg corr (.returns ss)).error
      = some .noFeasibleSolution ∧
    (fit st xShape 1 alphaArg numFeaturesArg timeLimitArg corr (.returns ss)).state.mask
      = st.mask := by
  have hfilter : ss.filter (fun s => s.feasible) = [] := by
    rw [List.filter_eq_nil_iff]
    intro s hs
    simp [hinf s hs]
  rw [fit_solver_eval st xShape alphaArg numFeaturesArg timeLimitArg corr ss hx hmethod
    halpha hnfpos hnflt, hfilter]
  exact ⟨rfl, rfl⟩

theorem C6_no_feasible_solution_w :
    (fit stB [4, 3] 1 none none none Csym (.returns ssInfeasible)).error
      = some .noFeasibleSolution ∧
    (fit stB [4, 3] 1 none none none Csym (.returns ssInfeasible)).state.mask
      = stB.mask :=
  C6_no_feasible_solution stB [4, 3] none none none Csym ssInfeasible
    (by decide) rfl (by norm_num [stB]) (by decide) (by decide) (by decide)

/-- **C7.** When the returned sample set contains at least one feasible
sample, `fit` selects among the feasible samples one of lowest energy and
stores as mask the projection of its 0/1 assignment along the model's
variable order `0..m-1` (`m` = number of feature columns); the mask has
length exactly `m`, its entries follow column order, and — because the
stored sample is feasible for the strict k-hot constraint — the number of
`True` entries equals the resolved `num_features`. -/
theorem C7_lowest_feasible_projection (st : SelectorState) (xShape : List ℕ)
    (alphaArg : Option ℚ) (numFeaturesArg : Option ℤ) (timeLimitArg : Option ℚ)
    (corr : ℕ → ℕ → ℚ) (ss : List Sample)
    (hx : (atleast_2d xShape).length = 2)
    (hmethod : st.config.method = "correlation")
    (halpha : 0 ≤ alphaArg.getD st.config.alpha ∧ alphaArg.getD st.config.alpha ≤ 1)
    (hnfpos : 0 < numFeaturesArg.getD st.config.num_features)
    (hnflt : numFeaturesArg.getD st.config.num_features
      < ((atleast_2d xShape).getD 1 0 : ℤ))
    (hfeas : ∃ s ∈ ss, s.feasible = true)
    (hflag : ∀ s ∈ ss, s.feasible = true →
      satisfies (kHot ((atleast_2d xShape).getD 1 0) true
        (numFeaturesArg.getD st.config.num_features)) s.assignment) :
    ∃ best,
      sampleset_first (ss.filter (fun s => s.feasible)) = some best ∧
      best ∈ ss ∧ best.feasible = true ∧
      (∀ s ∈ ss, s.feasible = true → best.energy ≤ s.energy) ∧
      (fit st xShape 1 alphaArg numFeaturesArg timeLimitArg corr (.returns ss)).error
        = none ∧
      (fit st xShape 1 alphaArg numFeaturesArg timeLimitArg corr (.returns ss)).state.mask
        = some ((List.range ((atleast_2d xShape).getD 1 0)).map
            (fun v => best.assignment v)) ∧
      ((List.range ((atleast_2d xShape).getD 1 0)).map
          (fun v => best.assignment v)).length = (atleast_2d xShape).getD 1 0 ∧
      ((((List.range ((atleast_2d xShape).getD 1 0)).map
          (fun v => best.assignment v)).count true : ℤ))
        = numFeaturesArg.getD st.config.num_features := by
  obtain ⟨s0, hs0, hs0f⟩ := hfeas
  have hne : ss.filter (fun s => s.feasible) ≠ [] := by
    intro hnil
    have hmem : s0 ∈ ss.filter (fun s => s.feasible) :=
      List.mem_filter.mpr ⟨hs0, by simp [hs0f]⟩
    rw [hnil] at hmem
    cases hmem
  obtain ⟨best, hfirst, hbestmem, hbestmin⟩ := sampleset_first_spec _ hne
  have hbestss : best ∈ ss := (List.mem_filter.mp hbestmem).1
  have hbestfeas : best.feasible = true := by
    have h2 := (List.mem_filter.mp hbestmem).2
    simpa using h2
  have heval := fit_solver_eval st xShape alphaArg numFeaturesArg timeLimitArg corr ss
    hx hmethod halpha hnfpos hnflt
  refine ⟨best, hfirst, hbestss, hbestfeas, ?_, ?_, ?_, ?_, ?_⟩
  · intro s hs hsf
    exact hbestmin s (List.mem_filter.mpr ⟨hs, by simp [hsf]⟩)
  · rw [heval, hfirst]
  · rw [heval, hfirst]
  · simp
  · have hsat := hflag best hbestss hbestfeas
    have heq : evalTerms ((List.range ((atleast_2d xShape).getD 1 0)).map
        (fun v => (v, (1 : ℚ)))) best.assignment
        = ((numFeaturesArg.getD st.config.num_features : ℤ) : ℚ) := hsat
    rw [evalTerms_ones] at heq
    exact_mod_cast heq

theorem C7_lowest_feasible_projection_w :
    ∃ best,
      sampleset_first (ssMixed.filter (fun s => s.feasible)) = some best ∧
      best ∈ ssMixed ∧ best.feasible = true ∧
      (∀ s ∈ ssMixed, s.feasible = true → best.energy ≤ s.energy) ∧
      (fit stB [4, 2] 1 none none none Csym (.returns ssMixed)).error = none ∧
      (fit stB [4, 2] 1 none none none Csym (.returns ssMixed)).state.mask
        = some ((List.range ((atleast_2d [4, 2]).getD 1 0)).map
            (fun v => best.assignment v)) ∧
      ((List.range ((atleast_2d [4, 2]).getD 1 0)).map
          (fun v => best.assignment v)).length = (atleast_2d [4, 2]).getD 1 0 ∧
      ((((List.range ((atleast_2d [4, 2]).getD 1 0)).map
          (fun v => best.assignment v)).count true : ℤ)) = (1 : ℤ) :=
  C7_lowest_feasible_projection stB [4, 2] none none none Csym ssMixed
    (by decide) rfl (by norm_num [stB]) (by decide) (by decide)
    (by decide)
    (by
      intro s hs hsf
      simp only [ssMixed, List.mem_cons, List.not_mem_nil, or_false] at hs
      rcases hs with h | h | h <;> subst h
      · show satisfies _ _
        norm_num [satisfies, kHot, evalTerms, stB, atleast_2d, Function.comp,
          List.range_succ]
      · show satisfies _ _
        norm_num [satisfies, kHot, evalTerms, stB, atleast_2d, Function.comp,
          List.range_succ]
      · exact absurd hsf (by decide))

/-- **C10.** A 1-dimensional `X` is not rejected by `fit`'s dimensionality
check: `atleast_2d` promotes it to the one-row shape `(1, n)` first, so the
check only rejects arrays with more than 2 dimensions; and on the
short-circuit path (`num_features ≥` resulting column count) `fit`
succeeds without validating `y`'s dimensionality or the alpha passed to
`fit`, and without calling the solver. -/
theorem C10_promotion_skips_validation :
    (∀ n : ℕ, atleast_2d [n] = [1, n]) ∧
    (∀ shape : List ℕ, (atleast_2d shape).length = 2 ↔ shape.length ≤ 2) ∧
    (∀ (st : SelectorState) (xShape : List ℕ) (yNdim : ℕ) (alphaArg : Option ℚ)
       (numFeaturesArg : Option ℤ) (timeLimitArg : Option ℚ) (corr : ℕ → ℕ → ℚ)
       (solver : SolverBehavior),
       xShape.length ≤ 2 →
       (numFeaturesArg.getD st.config.num_features)
         ≥ ((atleast_2d xShape).getD 1 0 : ℤ) →
       (fit st xShape yNdim alphaArg numFeaturesArg timeLimitArg corr solver).error
         = none ∧
       (fit st xShape yNdim alphaArg numFeaturesArg timeLimitArg corr solver).solverCall
         = none) := by
  have hlen : ∀ shape : List ℕ, (atleast_2d shape).length = 2 ↔ shape.length ≤ 2 := by
    intro shape
    match shape with
    | [] => simp [atleast_2d]
    | [n] => simp [atleast_2d]
    | a :: b :: t =>
      simp only [atleast_2d, List.length_cons]
      omega
  refine ⟨fun n => rfl, hlen, ?_⟩
  intro st xShape yNdim alphaArg numFeaturesArg timeLimitArg corr solver hdim hnf
  rw [fit_short_circuit st xShape yNdim alphaArg numFeaturesArg timeLimitArg corr solver
    ((hlen xShape).mpr hdim) hnf]
  exact ⟨rfl, rfl⟩

theorem C10_promotion_skips_validation_w :
    atleast_2d [7] = [1, 7] ∧
    (fit stA [4] 9 (some 7) none none Csym .unavailable).error = none ∧
    (fit stA [4] 9 (some 7) none none Csym .unavailable).solverCall = none :=
  ⟨C10_promotion_skips_validation.1 7,
   C10_promotion_skips_validation.2.2 stA [4] 9 (some 7) none none Csym .unavailable
     (by decide) (by decide)⟩
